import Mathlib

/-!
Verification development for the libdns-dynu adapter.

The adapter translates between the normalized libdns record shape and the
Dynu provider's native record shape, and orchestrates the four facade
operations (get / append / set / delete) over an abstract provider client.

Conventions of the embedding:
* Go strings are modelled as Lean `String` (a wrapper around `List Char`);
  all string primitives are defined on the underlying character lists.
* Go `time.Duration` (int64 nanoseconds), `int`, `int64` are modelled as
  `Int`; Go `uint` is modelled as `Nat`.  Conversions between Go `uint`
  and Go `int` wrap at 64 bits, which the explicit conversion functions
  reproduce.
* The remote client operations are pure oracles passed as parameters:
  one oracle value describes the provider's responses during one run.
* Fallible Go functions returning `(T, error)` are modelled as
  `T × Option E`; functions whose callers abort on error are modelled
  with `Except`.
-/

namespace Dynu

/-- Go `strings.TrimSuffix s suf`: drops the final occurrence of `suf`
if `suf` is a suffix of `s`, otherwise returns `s` unchanged. -/
def strTrimSuffix (s suf : String) : String :=
  if suf.data.length ≤ s.data.length ∧
      s.data.drop (s.data.length - suf.data.length) = suf.data then
    String.mk (s.data.take (s.data.length - suf.data.length))
  else s

/-- Go `strings.TrimRight s "."`: drops every trailing `'.'` character. -/
def strTrimRightDots (s : String) : String :=
  String.mk ((s.data.reverse.dropWhile (fun c => c = '.')).reverse)

/-- Modelled from the spec: the name-rebasing primitive shared by both
translation directions (`libdns.RelativeName`, which is not part of this
repository).  Given an absolute name and a domain, it produces the short
name by stripping the domain suffix and the trailing separator, yielding
the empty string if the absolute name equals the domain exactly, and
leaving the name unchanged when the domain is not a suffix. -/
def RelativeName (fqdn domain : String) : String :=
  strTrimSuffix (strTrimSuffix fqdn domain) "."

/-- Modelled from the spec: the other direction of the name-rebasing
primitive (`libdns.AbsoluteName`, not part of this repository).  Given a
short name and a domain it produces the absolute name by suffixing; the
empty name (or the apex marker) denotes the domain itself. -/
def AbsoluteName (name domain : String) : String :=
  if name = "" ∨ name = "@" then domain
  else if domain = "" then name
  else name ++ "." ++ domain

/-- `zoneToFqdn` from provider.go: trims the dots at the end of the
caller-supplied zone name (Go `strings.TrimRight(zone, ".")`). -/
def zoneToFqdn (zone : String) : String :=
  strTrimRightDots zone

end Dynu

namespace Dynu

/-- The normalized libdns record shape (`libdns.Record`): `ttl` is a Go
`time.Duration` in nanoseconds, `priority` a Go `uint`. -/
structure LibdnsRecord where
  id : String
  type : String
  name : String
  value : String
  ttl : Int
  priority : Nat
deriving Repr, DecidableEq

/-- The provider's native record shape (`DNSRecord` from the repository's
model file).  Field order and zero values follow the Go struct. -/
structure DNSRecord where
  id : Int
  type : String
  domainId : Int
  domainName : String
  nodeName : String
  hostname : String
  state : Bool
  content : String
  ipv4Address : String
  ipv6Address : String
  host : String
  textData : String
  ttl : Int
  priority : Int
  statusCode : Int
deriving Repr, DecidableEq

/-- The result of root resolution (`DNSHostname` from the repository's
model file). -/
structure DNSHostname where
  statusCode : Int
  id : Int
  domainName : String
  hostname : String
  node : String
deriving Repr, DecidableEq

instance exceptDecEq {e a : Type} [DecidableEq e] [DecidableEq a] :
    DecidableEq (Except e a) := fun x y =>
  match x, y with
  | Except.error x1, Except.error y1 =>
      if h : x1 = y1 then Decidable.isTrue (congrArg Except.error h)
      else Decidable.isFalse (fun hc => h (Except.error.inj hc))
  | Except.error _, Except.ok _ => Decidable.isFalse (fun hc => Except.noConfusion hc)
  | Except.ok _, Except.error _ => Decidable.isFalse (fun hc => Except.noConfusion hc)
  | Except.ok x1, Except.ok y1 =>
      if h : x1 = y1 then Decidable.isTrue (congrArg Except.ok h)
      else Decidable.isFalse (fun hc => h (Except.ok.inj hc))

/-- Go `int(u)` for a Go `uint` operand: keeps the low 64 bits,
reinterpreted as a signed value. -/
def intOfUint64 (n : Nat) : Int :=
  let m := n % 18446744073709551616
  if m < 9223372036854775808 then (m : Int) else (m : Int) - 18446744073709551616

/-- Go `uint(i)` for a Go `int` operand: keeps the low 64 bits. -/
def uintOfInt64 (i : Int) : Nat :=
  (i % 18446744073709551616).toNat

/-- Go `fmt.Sprint` of an `int64`: decimal representation with a leading
minus sign for negative values. -/
def intToDecString (i : Int) : String :=
  if i < 0 then String.mk ('-' :: (Nat.toDigits 10 i.natAbs))
  else String.mk (Nat.toDigits 10 i.toNat)

/-- Value accumulator for a run of decimal digit characters; fails on the
first non-digit character. -/
def decDigitsValAux (acc : Nat) : List Char → Option Nat
  | [] => some acc
  | c :: cs =>
      if 48 ≤ c.toNat ∧ c.toNat ≤ 57 then
        decDigitsValAux (acc * 10 + (c.toNat - 48)) cs
      else none

/-- Modelled from the spec: the ID-parsing step of the write translation
(Go `fmt.Sscan(record.ID, &id)`, a standard-library call that is not part
of this repository).  Per the spec, the ID is parsed into the provider's
numeric identifier and "a non-numeric or empty ID yields identifier 0":
an optional minus sign followed by a non-empty run of decimal digits
parses to its value, anything else parses to 0. -/
def sscanInt64List : List Char → Int
  | [] => 0
  | c :: rest =>
      if c = '-' then
        match decDigitsValAux 0 rest with
        | some n => if rest = [] then 0 else -(n : Int)
        | none => 0
      else
        match decDigitsValAux 0 (c :: rest) with
        | some n => (n : Int)
        | none => 0

/-- The ID parser applied to the characters of the ID string. -/
def sscanInt64 (s : String) : Int :=
  sscanInt64List s.data

/-- Modelled from the spec: the TTL conversion on the write path (Go
`int(record.TTL.Seconds())`, where `time.Duration.Seconds` is a
standard-library call that is not part of this repository).  Per the
spec the provider TTL is set "from the duration's whole seconds", i.e.
the nanosecond count divided by 10^9 truncated toward zero. -/
def durationSeconds (d : Int) : Int :=
  Int.tdiv d 1000000000

end Dynu

namespace Dynu

/-- The write-path error: `libdnsRecordToDnsRecord` fails with a
"record type not implemented" error carrying the offending record. -/
inductive TranslateError where
  | unsupportedType (record : LibdnsRecord)
deriving Repr, DecidableEq

/-- The type switch of `libdnsRecordToDnsRecord` (provider.go): populates
the type-specific value field of the provider record, mirroring the Go
`switch record.Type` statement case for case. -/
def typeSwitchWrite (record : LibdnsRecord) (base : DNSRecord) (ownDomain : String) :
    DNSRecord × Option TranslateError :=
  match record.type with
  | "A" => ({ base with ipv4Address := record.value }, none)
  | "AAAA" => ({ base with ipv6Address := record.value }, none)
  | "CNAME" => ({ base with host := record.value }, none)
  | "MX" => ({ base with host := record.value, priority := intOfUint64 record.priority }, none)
  | "NS" => ({ base with host := record.value }, none)
  | "PTR" => ({ base with host := record.name, nodeName := RelativeName record.value ownDomain }, none)
  | "SPF" => ({ base with textData := record.value }, none)
  | "TXT" => ({ base with textData := record.value }, none)
  | _ => (base, some (.unsupportedType record))

/-- `libdnsRecordToDnsRecord(record, domain, ownDomain)` from provider.go:
the normalized-to-provider translation.  The relative name is the record
name (apex marker mapped to the empty string) made absolute against the
zone domain and then re-based against the owning domain; `state` is
always set to true. -/
def libdnsRecordToDnsRecord (record : LibdnsRecord) (domain ownDomain : String) :
    DNSRecord × Option TranslateError :=
  let id := sscanInt64 record.id
  let nodeName := if record.name = "@" then "" else record.name
  let fqdn := AbsoluteName nodeName domain
  let relativeName := RelativeName fqdn ownDomain
  let dnsRecord : DNSRecord :=
    { id := id, type := record.type, domainId := 0, domainName := "",
      nodeName := relativeName, hostname := "", state := true,
      content := "", ipv4Address := "", ipv6Address := "", host := "",
      textData := "", ttl := durationSeconds record.ttl, priority := 0,
      statusCode := 0 }
  typeSwitchWrite record dnsRecord ownDomain

/-- The type switch of `dnsRecordToLibdnsRecord` (provider.go): picks the
normalized value from the type-specific provider field, with the generic
`content` fallback for unrecognized type tags; PTR swaps name and value. -/
def typeSwitchRead (dnsRecord : DNSRecord) (base : LibdnsRecord) : LibdnsRecord :=
  match dnsRecord.type with
  | "A" => { base with value := dnsRecord.ipv4Address }
  | "AAAA" => { base with value := dnsRecord.ipv6Address }
  | "CNAME" => { base with value := dnsRecord.host }
  | "MX" => { base with value := dnsRecord.host, priority := uintOfInt64 dnsRecord.priority }
  | "NS" => { base with value := dnsRecord.host }
  | "PTR" => { base with name := dnsRecord.host, value := dnsRecord.hostname }
  | "SPF" => { base with value := dnsRecord.textData }
  | "TXT" => { base with value := dnsRecord.textData }
  | _ => { base with value := dnsRecord.content }

/-- `dnsRecordToLibdnsRecord(dnsRecord, domain)` from provider.go: the
provider-to-normalized translation.  The name is the provider hostname
made relative to the zone domain, with the empty result mapped to the
apex marker; this direction is total and never fails. -/
def dnsRecordToLibdnsRecord (dnsRecord : DNSRecord) (domain : String) : LibdnsRecord :=
  let fqdn := dnsRecord.hostname
  let relativeName := RelativeName fqdn domain
  let relativeName := if relativeName = "" then "@" else relativeName
  typeSwitchRead dnsRecord
    { id := intToDecString dnsRecord.id, type := dnsRecord.type,
      name := relativeName, value := "", ttl := dnsRecord.ttl * 1000000000,
      priority := 0 }

/-- One entry of the combined error of an append/set batch: either the
translation error of a record, or the remote error wrapped with the
offending record (Go `fmt.Errorf("dnsRecord %+v: %w", rec, err)`). -/
inductive OpError (E : Type) where
  | translate (e : TranslateError)
  | remote (record : LibdnsRecord) (e : E)
deriving Repr, DecidableEq

/-- Go `errors.Join(es...)`: `nil` exactly when the error list is empty,
otherwise the combined error holding every entry in order. -/
def errorsJoin {α : Type} (es : List α) : Option (List α) :=
  match es with
  | [] => none
  | _ => some es

/-- One iteration of the record loop of `appendOrSetRecords` (provider.go):
a failed translation or remote call appends its error to the error list,
a success appends the translated response to the result list. -/
def appendOrSetStep {E : Type}
    (addOrUpdate : Int → DNSRecord → Bool → Except E DNSRecord)
    (rootId : Int) (domain ownDomain : String) (ignoreRecordId : Bool)
    (acc : List LibdnsRecord × List (OpError E)) (rec : LibdnsRecord) :
    List LibdnsRecord × List (OpError E) :=
  match libdnsRecordToDnsRecord rec domain ownDomain with
  | (_, some te) => (acc.1, acc.2 ++ [OpError.translate te])
  | (dnsRecord, none) =>
      match addOrUpdate rootId dnsRecord ignoreRecordId with
      | Except.error e => (acc.1, acc.2 ++ [OpError.remote rec e])
      | Except.ok resp =>
          (acc.1 ++ [dnsRecordToLibdnsRecord resp domain], acc.2)

/-- The record loop of `appendOrSetRecords` (provider.go), written exactly
as the Go `for` loop: a left fold of the per-record step over the input. -/
def appendOrSetLoop {E : Type}
    (addOrUpdate : Int → DNSRecord → Bool → Except E DNSRecord)
    (rootId : Int) (domain ownDomain : String) (ignoreRecordId : Bool)
    (records : List LibdnsRecord) :
    List LibdnsRecord × List (OpError E) :=
  records.foldl (appendOrSetStep addOrUpdate rootId domain ownDomain ignoreRecordId)
    ([], [])

/-- `appendOrSetRecords` from provider.go (the shared body of
`AppendRecords` and `SetRecords`): resolves the root for the configured
`OwnDomain`, then processes every record independently, returning the
successfully processed subset together with `errors.Join` of the
per-record failures.  `getRoot` and `addOrUpdate` are the client
oracles; root-resolution failure aborts the whole call. -/
def appendOrSetRecords {E : Type}
    (getRoot : String → Except E DNSHostname)
    (addOrUpdate : Int → DNSRecord → Bool → Except E DNSRecord)
    (ownDomain zone : String) (records : List LibdnsRecord)
    (ignoreRecordId : Bool) :
    Except E (List LibdnsRecord × Option (List (OpError E))) :=
  let domain := zoneToFqdn zone
  match getRoot ownDomain with
  | Except.error e => Except.error e
  | Except.ok dnsHostName =>
      let r := appendOrSetLoop addOrUpdate dnsHostName.id domain ownDomain
        ignoreRecordId records
      Except.ok (r.1, errorsJoin r.2)

/-- `GetRecords` from provider.go: resolves the root for the configured
`OwnDomain`, lists the records under it, and translates each one with
`dnsRecordToLibdnsRecord` against the trimmed zone. -/
def getRecords {E : Type}
    (getRoot : String → Except E DNSHostname)
    (listRecords : Int → Except E (List DNSRecord))
    (ownDomain zone : String) :
    Except E (List LibdnsRecord) :=
  let domain := zoneToFqdn zone
  match getRoot ownDomain with
  | Except.error e => Except.error e
  | Except.ok dnsHostName =>
      match listRecords dnsHostName.id with
      | Except.error e => Except.error e
      | Except.ok dnsRecords =>
          Except.ok (dnsRecords.map (fun d => dnsRecordToLibdnsRecord d domain))

/-- One iteration of the record loop of `DeleteRecords` (provider.go): a
successfully deleted input record is appended verbatim, a failure appends
one error wrapped with the record ID (Go
`fmt.Errorf("dnsRecordId %s: %w", rec.ID, err)`). -/
def deleteStep {E : Type} (deleteRecord : Int → String → Option E) (rootId : Int)
    (acc : List LibdnsRecord × List (String × E)) (rec : LibdnsRecord) :
    List LibdnsRecord × List (String × E) :=
  match deleteRecord rootId rec.id with
  | some e => (acc.1, acc.2 ++ [(rec.id, e)])
  | none => (acc.1 ++ [rec], acc.2)

/-- The record loop of `DeleteRecords` (provider.go): a left fold of the
per-record delete step over the input. -/
def deleteLoop {E : Type}
    (deleteRecord : Int → String → Option E)
    (rootId : Int) (records : List LibdnsRecord) :
    List LibdnsRecord × List (String × E) :=
  records.foldl (deleteStep deleteRecord rootId) ([], [])

/-- `DeleteRecords` from provider.go: resolves the root for the configured
`OwnDomain`, then deletes each record independently, returning the deleted
subset together with `errors.Join` of the per-record failures.  The zone
argument is accepted but never used by this operation. -/
def deleteRecords {E : Type}
    (getRoot : String → Except E DNSHostname)
    (deleteRecord : Int → String → Option E)
    (ownDomain zone : String) (records : List LibdnsRecord) :
    Except E (List LibdnsRecord × Option (List (String × E))) :=
  match getRoot ownDomain with
  | Except.error e => Except.error e
  | Except.ok dnsHostName =>
      let r := deleteLoop deleteRecord dnsHostName.id records
      Except.ok (r.1, errorsJoin r.2)

/-- Endpoint selection of `AddOrUpdateRecord` (client.go): the request
targets the existing record's endpoint (update semantics) exactly when
the record carries a non-zero identifier and `ignoreRecordId` is false;
otherwise it targets the collection endpoint (create semantics). -/
def addOrUpdateTargetsExisting (recordId : Int) (ignoreRecordId : Bool) : Bool :=
  recordId ≠ 0 && !ignoreRecordId

end Dynu

namespace Dynu

theorem string_mk_data (s : String) : String.mk s.data = s := rfl

theorem string_data_ne_nil_of_ne_empty {s : String} (h : s ≠ "") : s.data ≠ [] := by
  intro hdata
  apply h
  cases s
  simp only at hdata
  rw [hdata]

/-- Stripping a suffix that is present: Go `strings.TrimSuffix (a ++ b) b = a`. -/
theorem strTrimSuffix_append (a b : String) : strTrimSuffix (a ++ b) b = a := by
  unfold strTrimSuffix
  have hdata : (a ++ b).data = a.data ++ b.data := String.data_append a b
  have hlen : (a ++ b).data.length - b.data.length = a.data.length := by
    rw [hdata, List.length_append, Nat.add_sub_cancel]
  rw [if_pos]
  · rw [hlen, hdata, List.take_left, string_mk_data]
  · constructor
    · rw [hdata, List.length_append]
      exact Nat.le_add_left _ _
    · rw [hlen, hdata, List.drop_left]

/-- Stripping the empty suffix is the identity. -/
theorem strTrimSuffix_empty (s : String) : strTrimSuffix s "" = s := by
  unfold strTrimSuffix
  rw [if_pos]
  · rw [show ("" : String).data = [] from rfl, List.length_nil, Nat.sub_zero,
      List.take_length, string_mk_data]
  · constructor
    · exact Nat.zero_le _
    · rw [show ("" : String).data = [] from rfl, List.length_nil, Nat.sub_zero,
        List.drop_length]

/-- A string that does not end in a dot is unchanged by trimming a dot suffix. -/
theorem strTrimSuffix_dot_of_no_trailing_dot {s : String}
    (h : s.data.getLast? ≠ some '.') : strTrimSuffix s "." = s := by
  unfold strTrimSuffix
  rw [if_neg]
  intro hc
  apply h
  have h2 : s.data.drop (s.data.length - (".").data.length) = (".").data := hc.2
  have h0 : (s.data.drop (s.data.length - (".").data.length))[0]? = some '.' := by
    rw [h2]
    rfl
  rw [List.getElem?_drop, Nat.add_zero] at h0
  rw [List.getLast?_eq_getElem?]
  have hone : (".").data.length = 1 := rfl
  rw [hone] at h0
  exact h0

/-- Re-basing an absolute name built over a domain recovers the short name:
the core cancellation law of the naming primitive. -/
theorem RelativeName_append (n z : String) : RelativeName (n ++ "." ++ z) z = n := by
  unfold RelativeName
  rw [strTrimSuffix_append (n ++ ".") z, strTrimSuffix_append n "."]

/-- A domain re-based against itself is the empty (apex) relative name. -/
theorem RelativeName_self (z : String) : RelativeName z z = "" := by
  unfold RelativeName
  have h : strTrimSuffix z z = "" := by
    have h0 := strTrimSuffix_append "" z
    rwa [show ("" : String) ++ z = z from (String.ext (by simp [String.data_append]))] at h0
  rw [h]
  rfl

theorem AbsoluteName_empty_name (z : String) : AbsoluteName "" z = z := by
  unfold AbsoluteName
  rw [if_pos (Or.inl rfl)]

theorem AbsoluteName_of_plain {n : String} (z : String) (h1 : n ≠ "") (h2 : n ≠ "@")
    (h3 : z ≠ "") : AbsoluteName n z = n ++ "." ++ z := by
  unfold AbsoluteName
  rw [if_neg (by rintro (hc | hc) <;> [exact h1 hc; exact h2 hc]), if_neg h3]

/-- The last character of an appended string is the last character of its
non-empty second part. -/
theorem string_getLast_append {a b : String} (h : b ≠ "") :
    (a ++ b).data.getLast? = b.data.getLast? := by
  rw [String.data_append, List.getLast?_append]
  match hb : b.data.getLast? with
  | some c => rfl
  | none =>
      exact absurd (List.getLast?_eq_none_iff.mp hb) (string_data_ne_nil_of_ne_empty h)

end Dynu

namespace Dynu

/-- The record types the write path knows how to encode. -/
def knownTypes : List String := ["A", "AAAA", "CNAME", "MX", "NS", "PTR", "SPF", "TXT"]

/-- `x` sits cleanly under the domain `dom`: it is either `dom` itself or a
plain non-empty label sequence suffixed with `.dom`. -/
def cleanUnder (x dom : String) : Prop :=
  x = dom ∨ (dom ≠ "" ∧ ∃ v, v ≠ "" ∧ v ≠ "@" ∧ x = v ++ "." ++ dom)

/-- Making a name relative to a domain it sits cleanly under and then
making it absolute again is the identity. -/
theorem AbsoluteName_RelativeName_cancel {x dom : String} (h : cleanUnder x dom) :
    AbsoluteName (RelativeName x dom) dom = x := by
  rcases h with h | ⟨hdom, v, hv1, hv2, hv3⟩
  · rw [h, RelativeName_self, AbsoluteName_empty_name]
  · rw [hv3, RelativeName_append, AbsoluteName_of_plain dom hv1 hv2 hdom]

/-- The write-path type switch never touches `nodeName` except for PTR. -/
theorem typeSwitchWrite_nodeName {record : LibdnsRecord} {base : DNSRecord}
    {own : String} (h : record.type ≠ "PTR") :
    (typeSwitchWrite record base own).1.nodeName = base.nodeName := by
  unfold typeSwitchWrite
  split <;> simp_all

/-- The write-path type switch never changes the record type tag. -/
theorem typeSwitchWrite_type (record : LibdnsRecord) (base : DNSRecord)
    (own : String) : (typeSwitchWrite record base own).1.type = base.type := by
  unfold typeSwitchWrite
  split <;> rfl

/-- The write-path type switch never changes the TTL. -/
theorem typeSwitchWrite_ttl (record : LibdnsRecord) (base : DNSRecord)
    (own : String) : (typeSwitchWrite record base own).1.ttl = base.ttl := by
  unfold typeSwitchWrite
  split <;> rfl

/-- The write-path type switch fails exactly on unknown type tags. -/
theorem typeSwitchWrite_err_iff (record : LibdnsRecord) (base : DNSRecord)
    (own : String) :
    (typeSwitchWrite record base own).2 = none ↔ record.type ∈ knownTypes := by
  unfold typeSwitchWrite
  split <;> simp_all [knownTypes]

/-- The read-path type switch never touches the name except for PTR. -/
theorem typeSwitchRead_name {d : DNSRecord} {base : LibdnsRecord}
    (h : d.type ≠ "PTR") : (typeSwitchRead d base).name = base.name := by
  unfold typeSwitchRead
  split <;> simp_all

/-- The read-path type switch never changes the type tag. -/
theorem typeSwitchRead_type (d : DNSRecord) (base : LibdnsRecord) :
    (typeSwitchRead d base).type = base.type := by
  unfold typeSwitchRead
  split <;> rfl

/-- The read-path type switch never changes the TTL. -/
theorem typeSwitchRead_ttl (d : DNSRecord) (base : LibdnsRecord) :
    (typeSwitchRead d base).ttl = base.ttl := by
  unfold typeSwitchRead
  split <;> rfl

/-- Unknown type tags fall back to the generic content field on read. -/
theorem typeSwitchRead_content {d : DNSRecord} (base : LibdnsRecord)
    (h : d.type ∉ knownTypes) : (typeSwitchRead d base).value = d.content := by
  unfold typeSwitchRead
  split <;> simp_all [knownTypes]

end Dynu

namespace Dynu

theorem dropWhile_head_not_dot (l : List Char) (c : Char)
    (hc : (l.dropWhile (fun x => x = '.')).head? = some c) : (c = '.') = False := by
  induction l with
  | nil => simp at hc
  | cons a t ih =>
      rw [List.dropWhile_cons] at hc
      by_cases hp : (decide (a = '.')) = true
      · rw [if_pos hp] at hc
        exact ih hc
      · rw [if_neg hp] at hc
        simp only [List.head?_cons, Option.some.injEq] at hc
        simp only [decide_eq_true_eq] at hp
        rw [← hc]
        simp [hp]

theorem dropWhile_dot_idem (l : List Char) :
    (l.dropWhile (fun x => x = '.')).dropWhile (fun x => x = '.') =
      l.dropWhile (fun x => x = '.') := by
  match hd : l.dropWhile (fun x => x = '.') with
  | [] => rfl
  | a :: t =>
      have ha : (a = '.') = False := by
        apply dropWhile_head_not_dot l a
        rw [hd]
        rfl
      rw [List.dropWhile_cons]
      simp [ha]

theorem takeWhile_of_dropWhile_dot (l : List Char) :
    (l.dropWhile (fun x => x = '.')).takeWhile (fun x => x = '.') = [] := by
  match hd : l.dropWhile (fun x => x = '.') with
  | [] => rfl
  | a :: t =>
      have ha : (a = '.') = False := by
        apply dropWhile_head_not_dot l a
        rw [hd]
        rfl
      rw [List.takeWhile_cons]
      simp [ha]

end Dynu

namespace Dynu

/-- C3: for every normalized PTR record, the write translation sets the
provider `host` field to the literal caller-supplied name (not rebased)
and sets `nodeName` to the caller's value rebased against the owning
domain; conversely, for every provider PTR record, the read translation
takes the normalized name from the provider `host` field and the value
from the provider `hostname` field. -/
theorem c3_ptr_field_swap :
    (∀ (record : LibdnsRecord) (domain ownDomain : String), record.type = "PTR" →
      (libdnsRecordToDnsRecord record domain ownDomain).1.host = record.name ∧
      (libdnsRecordToDnsRecord record domain ownDomain).1.nodeName =
        RelativeName record.value ownDomain) ∧
    (∀ (dnsRecord : DNSRecord) (domain : String), dnsRecord.type = "PTR" →
      (dnsRecordToLibdnsRecord dnsRecord domain).name = dnsRecord.host ∧
      (dnsRecordToLibdnsRecord dnsRecord domain).value = dnsRecord.hostname) := by
  constructor
  · intro record domain ownDomain h
    constructor
    · simp [libdnsRecordToDnsRecord, typeSwitchWrite, h]
    · simp [libdnsRecordToDnsRecord, typeSwitchWrite, h]
  · intro dnsRecord domain h
    constructor
    · simp [dnsRecordToLibdnsRecord, typeSwitchRead, h]
    · simp [dnsRecordToLibdnsRecord, typeSwitchRead, h]

/-- Witness for C3 at the repository's own PTR test vectors. -/
theorem c3_ptr_field_swap_witness :
    (libdnsRecordToDnsRecord
      { id := "123", type := "PTR", name := "10.207.160.216.in-addr.arpa",
        value := "abc.my.dynu.com", ttl := 120000000000, priority := 0 }
      "dynu.com" "my.dynu.com").1.host = "10.207.160.216.in-addr.arpa" ∧
    (libdnsRecordToDnsRecord
      { id := "123", type := "PTR", name := "10.207.160.216.in-addr.arpa",
        value := "abc.my.dynu.com", ttl := 120000000000, priority := 0 }
      "dynu.com" "my.dynu.com").1.nodeName = RelativeName "abc.my.dynu.com" "my.dynu.com" ∧
    (dnsRecordToLibdnsRecord
      { id := 123, type := "PTR", domainId := 0, domainName := "my.dynu.com",
        nodeName := "abc", hostname := "abc.my.dynu.com", state := false,
        content := "", ipv4Address := "", ipv6Address := "",
        host := "10.207.160.216.in-addr.arpa", textData := "", ttl := 120,
        priority := 0, statusCode := 0 } "dynu.com").name = "10.207.160.216.in-addr.arpa" := by
  refine ⟨(c3_ptr_field_swap.1 _ "dynu.com" "my.dynu.com" rfl).1,
    (c3_ptr_field_swap.1 _ "dynu.com" "my.dynu.com" rfl).2,
    (c3_ptr_field_swap.2 _ "dynu.com" rfl).1⟩

/-- C5: type handling is asymmetric.  The write translation returns an
unsupported-record-type error exactly when the record type is outside the
known set; the read translation is a total function that maps every
unknown type tag through the generic content fallback into the value. -/
theorem c5_type_asymmetry :
    (∀ (record : LibdnsRecord) (domain ownDomain : String),
      ((libdnsRecordToDnsRecord record domain ownDomain).2 = none ↔
        record.type ∈ knownTypes)) ∧
    (∀ (dnsRecord : DNSRecord) (domain : String), dnsRecord.type ∉ knownTypes →
      (dnsRecordToLibdnsRecord dnsRecord domain).value = dnsRecord.content) := by
  constructor
  · intro record domain ownDomain
    unfold libdnsRecordToDnsRecord
    exact typeSwitchWrite_err_iff record _ ownDomain
  · intro dnsRecord domain h
    unfold dnsRecordToLibdnsRecord
    exact typeSwitchRead_content _ h

/-- Witness for C5 at the spec's "UNKNOWN" example: the write path rejects
it, the read path accepts it and surfaces the content field. -/
theorem c5_type_asymmetry_witness :
    ((libdnsRecordToDnsRecord
      { id := "", type := "UNKNOWN", name := "test", value := "x",
        ttl := 0, priority := 0 } "example.com" "example.com").2 = none ↔
      ("UNKNOWN" : String) ∈ knownTypes) ∧
    (dnsRecordToLibdnsRecord
      { id := 0, type := "UNKNOWN", domainId := 0, domainName := "",
        nodeName := "test", hostname := "test.example.com", state := true,
        content := "x", ipv4Address := "", ipv6Address := "", host := "",
        textData := "", ttl := 0, priority := 0, statusCode := 0 }
      "example.com").value = "x" :=
  ⟨c5_type_asymmetry.1 _ "example.com" "example.com",
   c5_type_asymmetry.2 _ "example.com" (by decide)⟩

/-- C7 counterexample: the facade's zone normalization removes all trailing
dots, not exactly one; on the zone "example.com.." the code produces
"example.com", while the claim requires "example.com.". -/
theorem c7_counterexample :
    zoneToFqdn "example.com.." = "example.com" ∧
    zoneToFqdn "example.com.." ≠ "example.com." := by
  constructor
  · decide
  · decide

/-- C7 (amended): the facade's zone normalization removes every trailing
'.' separator: the result carries no trailing dot, the input is the result
followed by some number of dots, and appending one more dot to the zone
never changes the result. -/
theorem c7_zone_trim (zone : String) :
    ((zoneToFqdn zone).data.reverse.takeWhile (fun c => c = '.') = [] ∧
     zoneToFqdn (zoneToFqdn zone) = zoneToFqdn zone) ∧
    (∃ k, zone.data = (zoneToFqdn zone).data ++ List.replicate k '.') ∧
    zoneToFqdn (zone ++ ".") = zoneToFqdn zone := by
  refine ⟨⟨?_, ?_⟩, ?_, ?_⟩
  · show ((String.mk ((zone.data.reverse.dropWhile (fun c => c = '.')).reverse)).data.reverse.takeWhile (fun c => c = '.')) = []
    simp only [List.reverse_reverse]
    exact takeWhile_of_dropWhile_dot _
  · show zoneToFqdn (String.mk ((zone.data.reverse.dropWhile (fun c => c = '.')).reverse)) = _
    unfold zoneToFqdn strTrimRightDots
    simp only [List.reverse_reverse]
    rw [dropWhile_dot_idem]
  · refine ⟨(zone.data.reverse.takeWhile (fun c => c = '.')).length, ?_⟩
    conv_lhs => rw [← List.reverse_reverse zone.data,
      ← List.takeWhile_append_dropWhile (p := fun c => c = '.') (l := zone.data.reverse)]
    rw [List.reverse_append]
    show _ = (String.mk ((zone.data.reverse.dropWhile (fun c => c = '.')).reverse)).data ++ _
    simp only []
    congr 1
    rw [← List.reverse_replicate]
    congr 1
    apply List.eq_replicate_length.mpr
    intro b hb
    have := List.mem_takeWhile_imp hb
    simpa using this
  · unfold zoneToFqdn strTrimRightDots
    congr 1
    rw [String.data_append]
    rw [show ("." : String).data = ['.'] from rfl]
    rw [List.reverse_append]
    rw [show (['.'] : List Char).reverse = ['.'] from rfl, List.singleton_append,
      List.dropWhile_cons]
    simp

end Dynu

namespace Dynu

theorem decDigitsValAux_digits (l : List Char) :
    ∀ acc : Nat, (∀ c ∈ l, 48 ≤ c.toNat ∧ c.toNat ≤ 57) →
    decDigitsValAux acc l =
      some (acc * 10 ^ l.length +
        Nat.ofDigits 10 (l.reverse.map (fun c => c.toNat - 48))) := by
  induction l with
  | nil =>
      intro acc _
      simp [decDigitsValAux, Nat.ofDigits_nil]
  | cons c cs ih =>
      intro acc h
      have hc := h c (List.mem_cons_self c cs)
      rw [decDigitsValAux, if_pos hc]
      rw [ih _ (fun x hx => h x (List.mem_cons_of_mem c hx))]
      congr 1
      rw [List.reverse_cons, List.map_append, Nat.ofDigits_append]
      simp only [List.map_cons, List.map_nil, List.length_map, List.length_reverse,
        List.length_cons, Nat.ofDigits_singleton]
      ring

theorem decDigitsValAux_fail (l : List Char) :
    ∀ acc : Nat, ¬(∀ c ∈ l, 48 ≤ c.toNat ∧ c.toNat ≤ 57) →
    decDigitsValAux acc l = none := by
  induction l with
  | nil =>
      intro acc h
      exact absurd (fun c hc => absurd hc (List.not_mem_nil c)) h
  | cons c cs ih =>
      intro acc h
      by_cases hc : 48 ≤ c.toNat ∧ c.toNat ≤ 57
      · rw [decDigitsValAux, if_pos hc]
        apply ih
        intro hall
        apply h
        intro x hx
        rcases List.mem_cons.mp hx with hx | hx
        · rw [hx]; exact hc
        · exact hall x hx
      · rw [decDigitsValAux, if_neg hc]

/-- A numeric ID string: an optional minus sign followed by a non-empty
run of decimal digit characters. -/
def NumericStr (s : String) : Prop :=
  (s.data ≠ [] ∧ ∀ c ∈ s.data, 48 ≤ c.toNat ∧ c.toNat ≤ 57) ∨
  (∃ t, s.data = '-' :: t ∧ t ≠ [] ∧ ∀ c ∈ t, 48 ≤ c.toNat ∧ c.toNat ≤ 57)

/-- The write-path type switch never changes the numeric identifier. -/
theorem typeSwitchWrite_id (record : LibdnsRecord) (base : DNSRecord)
    (own : String) : (typeSwitchWrite record base own).1.id = base.id := by
  unfold typeSwitchWrite
  split <;> rfl

/-- The provider record produced by the write translation carries exactly
the parsed numeric identifier of the normalized record's ID string. -/
theorem libdnsRecordToDnsRecord_id (record : LibdnsRecord)
    (domain ownDomain : String) :
    (libdnsRecordToDnsRecord record domain ownDomain).1.id =
      sscanInt64 record.id := by
  simp only [libdnsRecordToDnsRecord]
  rw [typeSwitchWrite_id]

theorem sscanInt64_of_not_numeric (s : String) (hs : ¬ NumericStr s) :
    sscanInt64 s = 0 := by
  unfold sscanInt64
  rcases hl : s.data with _ | ⟨c, rest⟩
  · rfl
  · rw [sscanInt64List]
    by_cases hc : c = '-'
    · rw [if_pos hc]
      rcases hrest : rest with _ | ⟨r, rs⟩
      · rw [show decDigitsValAux 0 ([] : List Char) = some 0 from rfl]
        rfl
      · have hnd : ¬(∀ x ∈ r :: rs, 48 ≤ x.toNat ∧ x.toNat ≤ 57) := by
          intro hall
          apply hs
          right
          refine ⟨r :: rs, ?_, List.cons_ne_nil r rs, hall⟩
          rw [hl, hrest, hc]
        rw [decDigitsValAux_fail _ _ hnd]
    · rw [if_neg hc]
      have hnd : ¬(∀ x ∈ c :: rest, 48 ≤ x.toNat ∧ x.toNat ≤ 57) := by
        intro hall
        apply hs
        left
        rw [hl]
        exact ⟨List.cons_ne_nil c rest, hall⟩
      rw [decDigitsValAux_fail _ _ hnd]

theorem sscanInt64_of_digits (s : String) (hne : s.data ≠ [])
    (hdig : ∀ c ∈ s.data, 48 ≤ c.toNat ∧ c.toNat ≤ 57) :
    sscanInt64 s =
      Int.ofNat (Nat.ofDigits 10 (s.data.reverse.map (fun c => c.toNat - 48))) := by
  unfold sscanInt64
  rcases hl : s.data with _ | ⟨c, rest⟩
  · exact absurd hl hne
  · have hdig2 : ∀ x ∈ c :: rest, 48 ≤ x.toNat ∧ x.toNat ≤ 57 := by
      rw [← hl]
      exact hdig
    have hc : 48 ≤ c.toNat ∧ c.toNat ≤ 57 :=
      hdig2 c (List.mem_cons_self c rest)
    have hcne : c ≠ '-' := by
      rintro rfl
      have h45 : ('-').toNat = 45 := rfl
      rw [h45] at hc
      omega
    rw [sscanInt64List, if_neg hcne]
    rw [decDigitsValAux_digits _ _ hdig2]
    rw [← hl]
    simp

/-- C8: the write translation produces a provider record whose numeric
identifier is the parse of the normalized record's ID string: an empty or
non-numeric ID string yields identifier 0 (create-new semantics at the
client: identifier 0 always targets the collection endpoint), and a
decimal-numeral ID yields that number. -/
theorem c8_id_parsing :
    (∀ (record : LibdnsRecord) (domain ownDomain : String),
      (libdnsRecordToDnsRecord record domain ownDomain).1.id =
        sscanInt64 record.id) ∧
    (∀ (record : LibdnsRecord) (domain ownDomain : String), record.id = "" →
      (libdnsRecordToDnsRecord record domain ownDomain).1.id = 0) ∧
    (∀ (record : LibdnsRecord) (domain ownDomain : String),
      ¬ NumericStr record.id →
      (libdnsRecordToDnsRecord record domain ownDomain).1.id = 0) ∧
    (∀ (record : LibdnsRecord) (domain ownDomain : String),
      record.id.data ≠ [] →
      (∀ c ∈ record.id.data, 48 ≤ c.toNat ∧ c.toNat ≤ 57) →
      (libdnsRecordToDnsRecord record domain ownDomain).1.id =
        Int.ofNat (Nat.ofDigits 10
          (record.id.data.reverse.map (fun c => c.toNat - 48)))) ∧
    (∀ ignoreRecordId : Bool, addOrUpdateTargetsExisting 0 ignoreRecordId = false) := by
  refine ⟨libdnsRecordToDnsRecord_id, ?_, ?_, ?_, ?_⟩
  · intro record domain ownDomain hid
    rw [libdnsRecordToDnsRecord_id, hid]
    rfl
  · intro record domain ownDomain hs
    rw [libdnsRecordToDnsRecord_id]
    exact sscanInt64_of_not_numeric record.id hs
  · intro record domain ownDomain hne hdig
    rw [libdnsRecordToDnsRecord_id]
    exact sscanInt64_of_digits record.id hne hdig
  · intro ignoreRecordId
    rfl

/-- Witness for C8: the translated provider record gets identifier 0 from
an empty ID and from the non-numeric ID "abc", and gets 123 from "123". -/
theorem c8_id_parsing_witness :
    (libdnsRecordToDnsRecord
      { id := "", type := "TXT", name := "a", value := "v", ttl := 0, priority := 0 }
      "dynu.com" "dynu.com").1.id = 0 ∧
    (¬ NumericStr "abc") ∧
    (libdnsRecordToDnsRecord
      { id := "abc", type := "TXT", name := "a", value := "v", ttl := 0, priority := 0 }
      "dynu.com" "dynu.com").1.id = 0 ∧
    (libdnsRecordToDnsRecord
      { id := "123", type := "TXT", name := "a", value := "v", ttl := 0, priority := 0 }
      "dynu.com" "dynu.com").1.id =
      Int.ofNat (Nat.ofDigits 10
        (("123" : String).data.reverse.map (fun c => c.toNat - 48))) ∧
    (libdnsRecordToDnsRecord
      { id := "123", type := "TXT", name := "a", value := "v", ttl := 0, priority := 0 }
      "dynu.com" "dynu.com").1.id = 123 := by
  have hnn : ¬ NumericStr "abc" := by
    rintro (⟨h1, h2⟩ | ⟨t, ht, ht2, ht3⟩)
    · exact absurd (h2 'a' (by decide)).2 (by decide)
    · rw [show ("abc" : String).data = ['a', 'b', 'c'] from rfl] at ht
      exact absurd (List.cons.inj ht).1 (by decide)
  refine ⟨c8_id_parsing.2.1 _ "dynu.com" "dynu.com" rfl, hnn,
    c8_id_parsing.2.2.1 _ "dynu.com" "dynu.com" hnn,
    c8_id_parsing.2.2.2.1 _ "dynu.com" "dynu.com" (by decide) (by decide),
    by decide⟩

end Dynu

namespace Dynu

/-- The fate of a single record in an append/set batch, as a function of
that record alone: its translation error, its remote error, or the
re-translated provider response. -/
def recordOutcome {E : Type}
    (addOrUpdate : Int → DNSRecord → Bool → Except E DNSRecord)
    (rootId : Int) (domain ownDomain : String) (ignoreRecordId : Bool)
    (rec : LibdnsRecord) : Except (OpError E) LibdnsRecord :=
  match libdnsRecordToDnsRecord rec domain ownDomain with
  | (_, some te) => Except.error (OpError.translate te)
  | (dnsRecord, none) =>
      match addOrUpdate rootId dnsRecord ignoreRecordId with
      | Except.error e => Except.error (OpError.remote rec e)
      | Except.ok resp => Except.ok (dnsRecordToLibdnsRecord resp domain)

/-- The fate of a single record in a delete batch, as a function of that
record alone. -/
def deleteOutcome {E : Type} (deleteRecord : Int → String → Option E)
    (rootId : Int) (rec : LibdnsRecord) : Except (String × E) LibdnsRecord :=
  match deleteRecord rootId rec.id with
  | some e => Except.error (rec.id, e)
  | none => Except.ok rec

/-- The error component of an outcome. -/
def exceptErr {e a : Type} : Except e a → Option e
  | Except.error x => some x
  | Except.ok _ => none

theorem appendOrSetStep_eq {E : Type}
    (addOrUpdate : Int → DNSRecord → Bool → Except E DNSRecord)
    (rootId : Int) (domain ownDomain : String) (ignoreRecordId : Bool)
    (acc : List LibdnsRecord × List (OpError E)) (rec : LibdnsRecord) :
    appendOrSetStep addOrUpdate rootId domain ownDomain ignoreRecordId acc rec =
      (acc.1 ++ (recordOutcome addOrUpdate rootId domain ownDomain ignoreRecordId rec).toOption.toList,
       acc.2 ++ (exceptErr (recordOutcome addOrUpdate rootId domain ownDomain ignoreRecordId rec)).toList) := by
  unfold appendOrSetStep recordOutcome
  rcases htr : libdnsRecordToDnsRecord rec domain ownDomain with ⟨d, oe⟩
  rcases oe with _ | te
  · rcases hau : addOrUpdate rootId d ignoreRecordId with e | resp
    · simp [exceptErr, Except.toOption, hau]
    · simp [exceptErr, Except.toOption, hau]
  · simp [exceptErr, Except.toOption]

theorem deleteStep_eq {E : Type} (deleteRecord : Int → String → Option E)
    (rootId : Int) (acc : List LibdnsRecord × List (String × E))
    (rec : LibdnsRecord) :
    deleteStep deleteRecord rootId acc rec =
      (acc.1 ++ (deleteOutcome deleteRecord rootId rec).toOption.toList,
       acc.2 ++ (exceptErr (deleteOutcome deleteRecord rootId rec)).toList) := by
  unfold deleteStep deleteOutcome
  rcases hd : deleteRecord rootId rec.id with _ | e
  · simp [exceptErr, Except.toOption]
  · simp [exceptErr, Except.toOption]

theorem foldl_step_filterMap {R A B : Type}
    (step : (List A × List B) → R → List A × List B)
    (fA : R → Option A) (fB : R → Option B)
    (hstep : ∀ acc r, step acc r = (acc.1 ++ (fA r).toList, acc.2 ++ (fB r).toList)) :
    ∀ (records : List R) (acc : List A × List B),
    records.foldl step acc = (acc.1 ++ records.filterMap fA, acc.2 ++ records.filterMap fB) := by
  intro records
  induction records with
  | nil =>
      intro acc
      simp
  | cons r rs ih =>
      intro acc
      rw [List.foldl_cons, ih, hstep]
      rcases hfa : fA r with _ | a <;> rcases hfb : fB r with _ | b <;>
        simp [List.filterMap_cons, hfa, hfb]

/-- The append/set loop processes every record independently: it returns
exactly the successes and the failures of the per-record outcomes, each in
input order. -/
theorem appendOrSetLoop_eq {E : Type}
    (addOrUpdate : Int → DNSRecord → Bool → Except E DNSRecord)
    (rootId : Int) (domain ownDomain : String) (ignoreRecordId : Bool)
    (records : List LibdnsRecord) :
    appendOrSetLoop addOrUpdate rootId domain ownDomain ignoreRecordId records =
      (records.filterMap (fun rec =>
         (recordOutcome addOrUpdate rootId domain ownDomain ignoreRecordId rec).toOption),
       records.filterMap (fun rec =>
         exceptErr (recordOutcome addOrUpdate rootId domain ownDomain ignoreRecordId rec))) := by
  unfold appendOrSetLoop
  rw [foldl_step_filterMap _ _ _
    (appendOrSetStep_eq addOrUpdate rootId domain ownDomain ignoreRecordId) records ([], [])]
  simp

/-- The delete loop processes every record independently. -/
theorem deleteLoop_eq {E : Type} (deleteRecord : Int → String → Option E)
    (rootId : Int) (records : List LibdnsRecord) :
    deleteLoop deleteRecord rootId records =
      (records.filterMap (fun rec => (deleteOutcome deleteRecord rootId rec).toOption),
       records.filterMap (fun rec => exceptErr (deleteOutcome deleteRecord rootId rec))) := by
  unfold deleteLoop
  rw [foldl_step_filterMap _ _ _ (deleteStep_eq deleteRecord rootId) records ([], [])]
  simp

end Dynu

namespace Dynu

theorem filterMap_deleteOutcome_eq_filter {E : Type}
    (deleteRecord : Int → String → Option E) (rootId : Int) :
    ∀ records : List LibdnsRecord,
    records.filterMap (fun rec => (deleteOutcome deleteRecord rootId rec).toOption) =
      records.filter (fun rec => (deleteRecord rootId rec.id).isNone) := by
  intro records
  induction records with
  | nil => rfl
  | cons rec rs ih =>
      rw [List.filterMap_cons, List.filter_cons]
      rcases hd : deleteRecord rootId rec.id with _ | e
      · have h1 : (deleteOutcome deleteRecord rootId rec).toOption = some rec := by
          simp [deleteOutcome, hd, Except.toOption]
        rw [h1]
        simp [ih]
      · have h1 : (deleteOutcome deleteRecord rootId rec).toOption = none := by
          simp [deleteOutcome, hd, Except.toOption]
        rw [h1]
        simp [ih]

/-- C6: for every batch passed to the append/set loop or the delete loop
after successful root resolution, each record is processed independently
of the fate of its siblings: the operation returns exactly the
successfully processed records (in input order) paired with
`errors.Join` of one error per failed record (in input order), and the
combined error is nil exactly when no record failed. -/
theorem c6_batch_partial_failure (E : Type)
    (getRoot : String → Except E DNSHostname)
    (addOrUpdate : Int → DNSRecord → Bool → Except E DNSRecord)
    (deleteRecord : Int → String → Option E)
    (ownDomain zone : String) (records : List LibdnsRecord)
    (ignoreRecordId : Bool) (root : DNSHostname)
    (hroot : getRoot ownDomain = Except.ok root) :
    appendOrSetRecords getRoot addOrUpdate ownDomain zone records ignoreRecordId =
      Except.ok
        (records.filterMap (fun rec =>
          (recordOutcome addOrUpdate root.id (zoneToFqdn zone) ownDomain ignoreRecordId rec).toOption),
         errorsJoin (records.filterMap (fun rec =>
          exceptErr (recordOutcome addOrUpdate root.id (zoneToFqdn zone) ownDomain ignoreRecordId rec)))) ∧
    deleteRecords getRoot deleteRecord ownDomain zone records =
      Except.ok
        (records.filterMap (fun rec => (deleteOutcome deleteRecord root.id rec).toOption),
         errorsJoin (records.filterMap (fun rec => exceptErr (deleteOutcome deleteRecord root.id rec)))) ∧
    (∀ es : List (OpError E), errorsJoin es = none ↔ es = []) := by
  refine ⟨?_, ?_, ?_⟩
  · simp [appendOrSetRecords, hroot, appendOrSetLoop_eq]
  · simp [deleteRecords, hroot, deleteLoop_eq]
  · intro es
    cases es <;> simp [errorsJoin]

/-- Witness for C6: three records where the second has an unsupported
type; append returns the two translated successes and exactly one error
for the middle record. -/
theorem c6_batch_partial_failure_witness :
    appendOrSetRecords
      (fun h => if h = "my.dynu.com" then Except.ok (⟨200, 5, "my.dynu.com", "my.dynu.com", ""⟩ : DNSHostname) else Except.error (7 : Nat))
      (fun _ d _ => Except.ok { d with hostname := AbsoluteName d.nodeName "my.dynu.com" })
      "my.dynu.com" "my.dynu.com."
      [{ id := "", type := "TXT", name := "a", value := "va", ttl := 0, priority := 0 },
       { id := "", type := "UNKNOWN", name := "b", value := "vb", ttl := 0, priority := 0 },
       { id := "", type := "TXT", name := "c", value := "vc", ttl := 0, priority := 0 }]
      true =
      Except.ok
        ([{ id := "", type := "TXT", name := "a", value := "va", ttl := 0, priority := 0 },
          { id := "", type := "UNKNOWN", name := "b", value := "vb", ttl := 0, priority := 0 },
          { id := "", type := "TXT", name := "c", value := "vc", ttl := 0, priority := 0 }].filterMap
          (fun rec => (recordOutcome
            (fun (_ : Int) (d : DNSRecord) (_ : Bool) =>
              (Except.ok { d with hostname := AbsoluteName d.nodeName "my.dynu.com" } : Except Nat DNSRecord))
            5 (zoneToFqdn "my.dynu.com.") "my.dynu.com" true rec).toOption),
         errorsJoin
          ([{ id := "", type := "TXT", name := "a", value := "va", ttl := 0, priority := 0 },
            { id := "", type := "UNKNOWN", name := "b", value := "vb", ttl := 0, priority := 0 },
            { id := "", type := "TXT", name := "c", value := "vc", ttl := 0, priority := 0 }].filterMap
            (fun rec => exceptErr (recordOutcome
              (fun (_ : Int) (d : DNSRecord) (_ : Bool) =>
                (Except.ok { d with hostname := AbsoluteName d.nodeName "my.dynu.com" } : Except Nat DNSRecord))
              5 (zoneToFqdn "my.dynu.com.") "my.dynu.com" true rec)))) ∧
    ([{ id := "", type := "TXT", name := "a", value := "va", ttl := 0, priority := 0 },
      { id := "", type := "UNKNOWN", name := "b", value := "vb", ttl := 0, priority := 0 },
      { id := "", type := "TXT", name := "c", value := "vc", ttl := 0, priority := 0 }].filterMap
      (fun rec => exceptErr (recordOutcome
        (fun (_ : Int) (d : DNSRecord) (_ : Bool) =>
          (Except.ok { d with hostname := AbsoluteName d.nodeName "my.dynu.com" } : Except Nat DNSRecord))
        5 (zoneToFqdn "my.dynu.com.") "my.dynu.com" true rec))).length = 1 := by
  constructor
  · exact (c6_batch_partial_failure Nat _ _ (fun _ _ => none) "my.dynu.com" "my.dynu.com." _ true _ rfl).1
  · decide

/-- C9: every input record whose remote delete succeeds is returned
verbatim: the delete result is exactly the filter of the caller's input
list by delete success, so no provider-derived data replaces any field
of a deleted record. -/
theorem c9_delete_returns_inputs_verbatim (E : Type)
    (getRoot : String → Except E DNSHostname)
    (deleteRecord : Int → String → Option E)
    (ownDomain zone : String) (records : List LibdnsRecord)
    (root : DNSHostname)
    (hroot : getRoot ownDomain = Except.ok root) :
    deleteRecords getRoot deleteRecord ownDomain zone records =
      Except.ok
        (records.filter (fun rec => (deleteRecord root.id rec.id).isNone),
         errorsJoin (records.filterMap (fun rec =>
           exceptErr (deleteOutcome deleteRecord root.id rec)))) := by
  simp only [deleteRecords, hroot, deleteLoop_eq]
  rw [filterMap_deleteOutcome_eq_filter]

/-- Witness for C9: two records, the second's remote delete fails; the
result list is exactly the first input record, unchanged. -/
theorem c9_delete_returns_inputs_verbatim_witness :
    deleteRecords
      (fun h => if h = "my.dynu.com" then Except.ok (⟨200, 5, "my.dynu.com", "my.dynu.com", ""⟩ : DNSHostname) else Except.error (7 : Nat))
      (fun _ recId => if recId = "11" then none else some 9)
      "my.dynu.com" "my.dynu.com."
      [{ id := "11", type := "TXT", name := "a", value := "va", ttl := 5, priority := 3 },
       { id := "22", type := "TXT", name := "b", value := "vb", ttl := 0, priority := 0 }] =
      Except.ok
        ([{ id := "11", type := "TXT", name := "a", value := "va", ttl := 5, priority := 3 },
          { id := "22", type := "TXT", name := "b", value := "vb", ttl := 0, priority := 0 }].filter
          (fun rec => ((fun (_ : Int) recId => if recId = "11" then none else some (9 : Nat)) 5 rec.id).isNone),
         errorsJoin
          ([{ id := "11", type := "TXT", name := "a", value := "va", ttl := 5, priority := 3 },
            { id := "22", type := "TXT", name := "b", value := "vb", ttl := 0, priority := 0 }].filterMap
            (fun rec => exceptErr (deleteOutcome
              (fun (_ : Int) recId => if recId = "11" then none else some (9 : Nat)) 5 rec)))) ∧
    ([{ id := "11", type := "TXT", name := "a", value := "va", ttl := 5, priority := 3 },
      { id := "22", type := "TXT", name := "b", value := "vb", ttl := 0, priority := 0 }] :
      List LibdnsRecord).filter
      (fun rec => ((fun (_ : Int) recId => if recId = "11" then none else some (9 : Nat)) 5 rec.id).isNone) =
      [{ id := "11", type := "TXT", name := "a", value := "va", ttl := 5, priority := 3 }] := by
  constructor
  · exact c9_delete_returns_inputs_verbatim Nat _ _ "my.dynu.com" "my.dynu.com." _ _ rfl
  · decide

end Dynu

namespace Dynu

/-- For non-PTR records the provider nodeName is the record name (apex
mapped to empty) made absolute against the zone and re-based against the
owning domain. -/
theorem libdnsRecordToDnsRecord_nodeName {record : LibdnsRecord}
    (domain ownDomain : String) (h : record.type ≠ "PTR") :
    (libdnsRecordToDnsRecord record domain ownDomain).1.nodeName =
      RelativeName (AbsoluteName (if record.name = "@" then "" else record.name) domain)
        ownDomain := by
  simp only [libdnsRecordToDnsRecord]
  rw [typeSwitchWrite_nodeName h]

theorem libdnsRecordToDnsRecord_type (record : LibdnsRecord)
    (domain ownDomain : String) :
    (libdnsRecordToDnsRecord record domain ownDomain).1.type = record.type := by
  simp only [libdnsRecordToDnsRecord]
  rw [typeSwitchWrite_type]

theorem libdnsRecordToDnsRecord_ttl (record : LibdnsRecord)
    (domain ownDomain : String) :
    (libdnsRecordToDnsRecord record domain ownDomain).1.ttl =
      durationSeconds record.ttl := by
  simp only [libdnsRecordToDnsRecord]
  rw [typeSwitchWrite_ttl]

/-- For non-PTR records the normalized name is the provider hostname made
relative to the zone, with the empty result mapped to the apex marker. -/
theorem dnsRecordToLibdnsRecord_name {dnsRecord : DNSRecord} (domain : String)
    (h : dnsRecord.type ≠ "PTR") :
    (dnsRecordToLibdnsRecord dnsRecord domain).name =
      (if RelativeName dnsRecord.hostname domain = "" then "@"
       else RelativeName dnsRecord.hostname domain) := by
  simp only [dnsRecordToLibdnsRecord]
  rw [typeSwitchRead_name h]

theorem dnsRecordToLibdnsRecord_type (dnsRecord : DNSRecord) (domain : String) :
    (dnsRecordToLibdnsRecord dnsRecord domain).type = dnsRecord.type := by
  simp only [dnsRecordToLibdnsRecord]
  rw [typeSwitchRead_type]

theorem dnsRecordToLibdnsRecord_ttl (dnsRecord : DNSRecord) (domain : String) :
    (dnsRecordToLibdnsRecord dnsRecord domain).ttl = dnsRecord.ttl * 1000000000 := by
  simp only [dnsRecordToLibdnsRecord]
  rw [typeSwitchRead_ttl]

/-- C4 counterexample: apex mapping is not lossless for every record.  With
owning domain "my.example.com" distinct from zone "example.com", the apex
record name "@" translates to provider nodeName "example.com", not "". -/
theorem c4_counterexample :
    (libdnsRecordToDnsRecord
      { id := "", type := "A", name := "@", value := "1.2.3.4", ttl := 0, priority := 0 }
      "example.com" "my.example.com").1.nodeName = "example.com" ∧
    (libdnsRecordToDnsRecord
      { id := "", type := "A", name := "@", value := "1.2.3.4", ttl := 0, priority := 0 }
      "example.com" "my.example.com").1.nodeName ≠ "" := by
  constructor
  · decide
  · decide

/-- C4 (amended): apex mapping is lossless for non-PTR records when the
owning domain equals the zone domain: a normalized name "@" translates to
an empty provider nodeName, and a provider record whose hostname equals
the zone domain translates back to name "@" (the read direction holds for
every domain). -/
theorem c4_apex_mapping :
    (∀ (record : LibdnsRecord) (domain : String), record.type ≠ "PTR" →
      record.name = "@" →
      (libdnsRecordToDnsRecord record domain domain).1.nodeName = "") ∧
    (∀ (dnsRecord : DNSRecord) (domain : String), dnsRecord.type ≠ "PTR" →
      dnsRecord.hostname = domain →
      (dnsRecordToLibdnsRecord dnsRecord domain).name = "@") := by
  constructor
  · intro record domain hptr hname
    rw [libdnsRecordToDnsRecord_nodeName domain domain hptr, hname]
    rw [if_pos rfl, AbsoluteName_empty_name, RelativeName_self]
  · intro dnsRecord domain hptr hhost
    rw [dnsRecordToLibdnsRecord_name domain hptr, hhost, RelativeName_self]
    rw [if_pos rfl]

/-- Witness for C4 at the repository's own apex test vectors. -/
theorem c4_apex_mapping_witness :
    (libdnsRecordToDnsRecord
      { id := "123", type := "A", name := "@", value := "", ttl := 120000000000, priority := 0 }
      "dynu.com" "dynu.com").1.nodeName = "" ∧
    (dnsRecordToLibdnsRecord
      { id := 123, type := "A", domainId := 0, domainName := "dynu.com",
        nodeName := "", hostname := "dynu.com", state := false, content := "",
        ipv4Address := "", ipv6Address := "", host := "", textData := "",
        ttl := 120, priority := 0, statusCode := 0 } "dynu.com").name = "@" :=
  ⟨c4_apex_mapping.1 _ "dynu.com" (by decide) rfl,
   c4_apex_mapping.2 _ "dynu.com" (by decide) rfl⟩

/-- C10: the write path converts the normalized TTL duration (nanoseconds)
to whole seconds truncated toward zero (same magnitude as the Nat
division of the magnitudes, sign preserved), the read path converts
provider whole seconds back to a duration, and the TTL round-trips
exactly when the original duration is a whole number of seconds. -/
theorem c10_ttl_truncation :
    (∀ (record : LibdnsRecord) (domain ownDomain : String),
      (libdnsRecordToDnsRecord record domain ownDomain).1.ttl =
        durationSeconds record.ttl) ∧
    (∀ (dnsRecord : DNSRecord) (domain : String),
      (dnsRecordToLibdnsRecord dnsRecord domain).ttl = dnsRecord.ttl * 1000000000) ∧
    (∀ t : Int, (durationSeconds t).natAbs = t.natAbs / 1000000000) ∧
    (∀ t : Int, 0 ≤ t → 0 ≤ durationSeconds t) ∧
    (∀ t : Int, t ≤ 0 → durationSeconds t ≤ 0) ∧
    (∀ t : Int, durationSeconds t * 1000000000 = t ↔ (1000000000 : Int) ∣ t) := by
  refine ⟨libdnsRecordToDnsRecord_ttl, dnsRecordToLibdnsRecord_ttl, ?_, ?_, ?_, ?_⟩
  · intro t
    exact Int.natAbs_tdiv t 1000000000
  · intro t ht
    exact Int.tdiv_nonneg ht (by norm_num)
  · intro t ht
    have h1 : 0 ≤ -t := by omega
    have h2 : 0 ≤ (-t).tdiv 1000000000 := Int.tdiv_nonneg h1 (by norm_num)
    rw [Int.neg_tdiv] at h2
    unfold durationSeconds
    omega
  · intro t
    constructor
    · intro h
      exact dvd_def.mpr ⟨durationSeconds t, by omega⟩
    · intro h
      exact Int.tdiv_mul_cancel h

/-- Witness for C10: a whole-second TTL round-trips, a sub-second TTL is
truncated. -/
theorem c10_ttl_truncation_witness :
    (libdnsRecordToDnsRecord
      { id := "", type := "TXT", name := "a", value := "v", ttl := 120000000000, priority := 0 }
      "dynu.com" "dynu.com").1.ttl = durationSeconds 120000000000 ∧
    (durationSeconds 1500000000).natAbs = (1500000000 : Int).natAbs / 1000000000 ∧
    (durationSeconds 120000000000 * 1000000000 = 120000000000 ↔
      (1000000000 : Int) ∣ 120000000000) ∧
    (0 : Int) ≤ 1500000000 ∧ 0 ≤ durationSeconds 1500000000 :=
  ⟨c10_ttl_truncation.1 _ "dynu.com" "dynu.com",
   c10_ttl_truncation.2.2.1 1500000000,
   c10_ttl_truncation.2.2.2.2.2 120000000000,
   by decide,
   c10_ttl_truncation.2.2.2.1 1500000000 (by decide)⟩

end Dynu

namespace Dynu

/-- C1 counterexample: with the owning-domain configuration empty the
adapter does not behave as if the owning domain were the zone domain.
Root resolution receives the empty string (failing where the zone FQDN
would succeed), and the write translation re-bases against the empty
owning domain, leaving the full absolute name in nodeName. -/
theorem c1_counterexample :
    appendOrSetRecords
      (fun h => if h = "example.com"
        then Except.ok (⟨200, 5, "example.com", "example.com", ""⟩ : DNSHostname)
        else Except.error (7 : Nat))
      (fun _ d _ => Except.ok d)
      "" "example.com."
      [{ id := "", type := "A", name := "sub", value := "1.2.3.4", ttl := 0, priority := 0 }]
      true = Except.error 7 ∧
    appendOrSetRecords
      (fun h => if h = "example.com"
        then Except.ok (⟨200, 5, "example.com", "example.com", ""⟩ : DNSHostname)
        else Except.error (7 : Nat))
      (fun _ d _ => Except.ok d)
      "example.com" "example.com."
      [{ id := "", type := "A", name := "sub", value := "1.2.3.4", ttl := 0, priority := 0 }]
      true ≠ Except.error 7 ∧
    (libdnsRecordToDnsRecord
      { id := "", type := "A", name := "sub", value := "1.2.3.4", ttl := 0, priority := 0 }
      "example.com" "").1.nodeName = "sub.example.com" ∧
    (libdnsRecordToDnsRecord
      { id := "", type := "A", name := "sub", value := "1.2.3.4", ttl := 0, priority := 0 }
      "example.com" "example.com").1.nodeName = "sub" := by
  refine ⟨by decide, by decide, by decide, by decide⟩

/-- C1 (amended): the adapter never substitutes the zone for an unset
owning domain.  Every facade operation passes the configured OwnDomain
string verbatim to root resolution — the outcome depends on the
root-resolution oracle only through its value at OwnDomain, also when
OwnDomain is empty — and with an empty owning domain the write
translation leaves the full absolute name in nodeName instead of the
zone-relative name. -/
theorem c1_owning_domain_verbatim :
    (∀ (E : Type) (g1 g2 : String → Except E DNSHostname)
      (addOrUpdate : Int → DNSRecord → Bool → Except E DNSRecord)
      (deleteRecord : Int → String → Option E)
      (listRecords : Int → Except E (List DNSRecord))
      (ownDomain zone : String) (records : List LibdnsRecord) (b : Bool),
      g1 ownDomain = g2 ownDomain →
        appendOrSetRecords g1 addOrUpdate ownDomain zone records b =
          appendOrSetRecords g2 addOrUpdate ownDomain zone records b ∧
        deleteRecords g1 deleteRecord ownDomain zone records =
          deleteRecords g2 deleteRecord ownDomain zone records ∧
        getRecords g1 listRecords ownDomain zone =
          getRecords g2 listRecords ownDomain zone) ∧
    (∀ (record : LibdnsRecord) (domain : String), record.type ≠ "PTR" →
      record.name ≠ "" → record.name ≠ "@" → domain ≠ "" →
      domain.data.getLast? ≠ some '.' →
      (libdnsRecordToDnsRecord record domain "").1.nodeName =
        record.name ++ "." ++ domain) := by
  constructor
  · intro E g1 g2 addOrUpdate deleteRecord listRecords ownDomain zone records b hg
    refine ⟨?_, ?_, ?_⟩
    · simp [appendOrSetRecords, hg]
    · simp [deleteRecords, hg]
    · simp [getRecords, hg]
  · intro record domain hptr hne hat hdom hlast
    rw [libdnsRecordToDnsRecord_nodeName domain "" hptr, if_neg hat,
      AbsoluteName_of_plain domain hne hat hdom]
    unfold RelativeName
    rw [strTrimSuffix_empty]
    apply strTrimSuffix_dot_of_no_trailing_dot
    rw [string_getLast_append hdom]
    exact hlast

/-- Witness for C1: two root oracles agreeing at the empty owning domain
give identical results, and the empty owning domain leaves an absolute
nodeName. -/
theorem c1_owning_domain_verbatim_witness :
    (appendOrSetRecords
      (fun h => if h = "" then Except.ok (⟨200, 5, "", "", ""⟩ : DNSHostname) else Except.error (1 : Nat))
      (fun _ d _ => Except.ok d) "" "example.com."
      [{ id := "", type := "A", name := "sub", value := "1.2.3.4", ttl := 0, priority := 0 }] true =
     appendOrSetRecords
      (fun h => if h = "" then Except.ok (⟨200, 5, "", "", ""⟩ : DNSHostname) else Except.error (2 : Nat))
      (fun _ d _ => Except.ok d) "" "example.com."
      [{ id := "", type := "A", name := "sub", value := "1.2.3.4", ttl := 0, priority := 0 }] true) ∧
    (libdnsRecordToDnsRecord
      { id := "", type := "A", name := "sub", value := "1.2.3.4", ttl := 0, priority := 0 }
      "example.com" "").1.nodeName = "sub" ++ "." ++ "example.com" := by
  constructor
  · exact (c1_owning_domain_verbatim.1 Nat _ _ _ (fun _ _ => none) (fun _ => Except.ok [])
      "" "example.com." _ true (by decide)).1
  · exact c1_owning_domain_verbatim.2 _ "example.com" (by decide) (by decide) (by decide)
      (by decide) (by decide)

end Dynu

namespace Dynu

/-- Modelled from the spec: a provider echoing a written record back with
the same fields, the hostname reconstituted from nodeName and the owning
domain. -/
def providerEcho (d : DNSRecord) (ownDomain : String) : DNSRecord :=
  { d with hostname := AbsoluteName d.nodeName ownDomain }

theorem roundTrip_type (record : LibdnsRecord) (domain ownDomain : String) :
    (dnsRecordToLibdnsRecord
      (providerEcho (libdnsRecordToDnsRecord record domain ownDomain).1 ownDomain)
      domain).type = record.type := by
  rw [dnsRecordToLibdnsRecord_type]
  simp [providerEcho, libdnsRecordToDnsRecord_type]

theorem roundTrip_ttl (record : LibdnsRecord) (domain ownDomain : String)
    (httl : (1000000000 : Int) ∣ record.ttl) :
    (dnsRecordToLibdnsRecord
      (providerEcho (libdnsRecordToDnsRecord record domain ownDomain).1 ownDomain)
      domain).ttl = record.ttl := by
  rw [dnsRecordToLibdnsRecord_ttl]
  have h1 : (providerEcho (libdnsRecordToDnsRecord record domain ownDomain).1 ownDomain).ttl =
      durationSeconds record.ttl := by
    simp [providerEcho, libdnsRecordToDnsRecord_ttl]
  rw [h1]
  exact Int.tdiv_mul_cancel httl

theorem roundTrip_name {record : LibdnsRecord} {domain ownDomain : String}
    (hptr : record.type ≠ "PTR") (hname : record.name ≠ "") (hdom : domain ≠ "")
    (hclean : cleanUnder
      (AbsoluteName (if record.name = "@" then "" else record.name) domain) ownDomain) :
    (dnsRecordToLibdnsRecord
      (providerEcho (libdnsRecordToDnsRecord record domain ownDomain).1 ownDomain)
      domain).name = record.name := by
  have heptr : (providerEcho (libdnsRecordToDnsRecord record domain ownDomain).1 ownDomain).type ≠ "PTR" := by
    have h1 : (providerEcho (libdnsRecordToDnsRecord record domain ownDomain).1 ownDomain).type =
        record.type := by
      simp [providerEcho, libdnsRecordToDnsRecord_type]
    rw [h1]
    exact hptr
  rw [dnsRecordToLibdnsRecord_name domain heptr]
  have hehost : (providerEcho (libdnsRecordToDnsRecord record domain ownDomain).1 ownDomain).hostname =
      AbsoluteName (if record.name = "@" then "" else record.name) domain := by
    show AbsoluteName (libdnsRecordToDnsRecord record domain ownDomain).1.nodeName ownDomain = _
    rw [libdnsRecordToDnsRecord_nodeName domain ownDomain hptr]
    exact AbsoluteName_RelativeName_cancel hclean
  rw [hehost]
  by_cases hq : record.name = "@"
  · rw [hq, if_pos rfl, AbsoluteName_empty_name, RelativeName_self, if_pos rfl]
  · rw [if_neg hq, AbsoluteName_of_plain domain hname hq hdom, RelativeName_append,
      if_neg hname]

end Dynu

namespace Dynu

/-- C2 counterexample: the round trip does not hold for every zone/owning
domain pair.  With zone "example.com" and owning domain "other.org", the
A record named "sub" comes back named "sub.example.com.other.org". -/
theorem c2_counterexample :
    (dnsRecordToLibdnsRecord
      (providerEcho (libdnsRecordToDnsRecord
        { id := "", type := "A", name := "sub", value := "1.2.3.4", ttl := 0, priority := 0 }
        "example.com" "other.org").1 "other.org") "example.com").name =
      "sub.example.com.other.org" ∧
    (dnsRecordToLibdnsRecord
      (providerEcho (libdnsRecordToDnsRecord
        { id := "", type := "A", name := "sub", value := "1.2.3.4", ttl := 0, priority := 0 }
        "example.com" "other.org").1 "other.org") "example.com").name ≠ "sub" := by
  constructor
  · decide
  · decide

/-- C2 (amended): the write-then-read round trip reproduces name, type,
value and TTL for every supported record type, provided the names involved
rebase cleanly: for non-PTR types the record's absolute name must sit
cleanly under the owning domain (and the record name be non-empty, the
zone domain non-empty); for PTR the record's value must sit cleanly under
the owning domain; and the TTL must be a whole number of seconds. -/
theorem c2_round_trip :
    (∀ (record : LibdnsRecord) (domain ownDomain : String),
      record.type ∈ (["A", "AAAA", "CNAME", "MX", "NS", "SPF", "TXT"] : List String) →
      record.name ≠ "" → domain ≠ "" →
      cleanUnder (AbsoluteName (if record.name = "@" then "" else record.name) domain)
        ownDomain →
      (1000000000 : Int) ∣ record.ttl →
      (libdnsRecordToDnsRecord record domain ownDomain).2 = none ∧
      (dnsRecordToLibdnsRecord
        (providerEcho (libdnsRecordToDnsRecord record domain ownDomain).1 ownDomain)
        domain).name = record.name ∧
      (dnsRecordToLibdnsRecord
        (providerEcho (libdnsRecordToDnsRecord record domain ownDomain).1 ownDomain)
        domain).type = record.type ∧
      (dnsRecordToLibdnsRecord
        (providerEcho (libdnsRecordToDnsRecord record domain ownDomain).1 ownDomain)
        domain).value = record.value ∧
      (dnsRecordToLibdnsRecord
        (providerEcho (libdnsRecordToDnsRecord record domain ownDomain).1 ownDomain)
        domain).ttl = record.ttl) ∧
    (∀ (record : LibdnsRecord) (domain ownDomain : String),
      record.type = "PTR" →
      cleanUnder record.value ownDomain →
      (1000000000 : Int) ∣ record.ttl →
      (libdnsRecordToDnsRecord record domain ownDomain).2 = none ∧
      (dnsRecordToLibdnsRecord
        (providerEcho (libdnsRecordToDnsRecord record domain ownDomain).1 ownDomain)
        domain).name = record.name ∧
      (dnsRecordToLibdnsRecord
        (providerEcho (libdnsRecordToDnsRecord record domain ownDomain).1 ownDomain)
        domain).type = record.type ∧
      (dnsRecordToLibdnsRecord
        (providerEcho (libdnsRecordToDnsRecord record domain ownDomain).1 ownDomain)
        domain).value = record.value ∧
      (dnsRecordToLibdnsRecord
        (providerEcho (libdnsRecordToDnsRecord record domain ownDomain).1 ownDomain)
        domain).ttl = record.ttl) := by
  constructor
  · intro record domain ownDomain hty hname hdom hclean httl
    simp only [List.mem_cons, List.mem_singleton, List.not_mem_nil, or_false] at hty
    have hptr : record.type ≠ "PTR" := by
      rcases hty with h | h | h | h | h | h | h <;> rw [h] <;> decide
    have hknown : record.type ∈ knownTypes := by
      rcases hty with h | h | h | h | h | h | h <;> rw [h] <;> decide
    refine ⟨?_, roundTrip_name hptr hname hdom hclean, roundTrip_type record domain ownDomain,
      ?_, roundTrip_ttl record domain ownDomain httl⟩
    · unfold libdnsRecordToDnsRecord
      rw [typeSwitchWrite_err_iff]
      exact hknown
    · rcases hty with h | h | h | h | h | h | h <;>
        simp [libdnsRecordToDnsRecord, typeSwitchWrite, providerEcho,
          dnsRecordToLibdnsRecord, typeSwitchRead, h]
  · intro record domain ownDomain hty hclean httl
    have hcancel := AbsoluteName_RelativeName_cancel hclean
    refine ⟨?_, ?_, roundTrip_type record domain ownDomain, ?_, roundTrip_ttl record domain ownDomain httl⟩
    · unfold libdnsRecordToDnsRecord
      rw [typeSwitchWrite_err_iff, hty]
      decide
    · simp [libdnsRecordToDnsRecord, typeSwitchWrite, providerEcho,
        dnsRecordToLibdnsRecord, typeSwitchRead, hty]
    · simp [libdnsRecordToDnsRecord, typeSwitchWrite, providerEcho,
        dnsRecordToLibdnsRecord, typeSwitchRead, hty]
      exact hcancel

end Dynu

namespace Dynu

/-- Witness for C2 at the repository's own test vectors: an A record named
"abc.my" and a PTR record, both under zone "dynu.com" with owning domain
"my.dynu.com", round-trip exactly. -/
theorem c2_round_trip_witness :
    ((libdnsRecordToDnsRecord
      { id := "123", type := "A", name := "abc.my", value := "1.2.3.4", ttl := 120000000000, priority := 0 }
      "dynu.com" "my.dynu.com").2 = none ∧
     (dnsRecordToLibdnsRecord
      (providerEcho (libdnsRecordToDnsRecord
        { id := "123", type := "A", name := "abc.my", value := "1.2.3.4", ttl := 120000000000, priority := 0 }
        "dynu.com" "my.dynu.com").1 "my.dynu.com") "dynu.com").name = "abc.my" ∧
     (dnsRecordToLibdnsRecord
      (providerEcho (libdnsRecordToDnsRecord
        { id := "123", type := "A", name := "abc.my", value := "1.2.3.4", ttl := 120000000000, priority := 0 }
        "dynu.com" "my.dynu.com").1 "my.dynu.com") "dynu.com").type = "A" ∧
     (dnsRecordToLibdnsRecord
      (providerEcho (libdnsRecordToDnsRecord
        { id := "123", type := "A", name := "abc.my", value := "1.2.3.4", ttl := 120000000000, priority := 0 }
        "dynu.com" "my.dynu.com").1 "my.dynu.com") "dynu.com").value = "1.2.3.4" ∧
     (dnsRecordToLibdnsRecord
      (providerEcho (libdnsRecordToDnsRecord
        { id := "123", type := "A", name := "abc.my", value := "1.2.3.4", ttl := 120000000000, priority := 0 }
        "dynu.com" "my.dynu.com").1 "my.dynu.com") "dynu.com").ttl = 120000000000) ∧
    ((libdnsRecordToDnsRecord
      { id := "123", type := "PTR", name := "10.207.160.216.in-addr.arpa", value := "abc.my.dynu.com", ttl := 120000000000, priority := 0 }
      "dynu.com" "my.dynu.com").2 = none ∧
     (dnsRecordToLibdnsRecord
      (providerEcho (libdnsRecordToDnsRecord
        { id := "123", type := "PTR", name := "10.207.160.216.in-addr.arpa", value := "abc.my.dynu.com", ttl := 120000000000, priority := 0 }
        "dynu.com" "my.dynu.com").1 "my.dynu.com") "dynu.com").name = "10.207.160.216.in-addr.arpa" ∧
     (dnsRecordToLibdnsRecord
      (providerEcho (libdnsRecordToDnsRecord
        { id := "123", type := "PTR", name := "10.207.160.216.in-addr.arpa", value := "abc.my.dynu.com", ttl := 120000000000, priority := 0 }
        "dynu.com" "my.dynu.com").1 "my.dynu.com") "dynu.com").type = "PTR" ∧
     (dnsRecordToLibdnsRecord
      (providerEcho (libdnsRecordToDnsRecord
        { id := "123", type := "PTR", name := "10.207.160.216.in-addr.arpa", value := "abc.my.dynu.com", ttl := 120000000000, priority := 0 }
        "dynu.com" "my.dynu.com").1 "my.dynu.com") "dynu.com").value = "abc.my.dynu.com" ∧
     (dnsRecordToLibdnsRecord
      (providerEcho (libdnsRecordToDnsRecord
        { id := "123", type := "PTR", name := "10.207.160.216.in-addr.arpa", value := "abc.my.dynu.com", ttl := 120000000000, priority := 0 }
        "dynu.com" "my.dynu.com").1 "my.dynu.com") "dynu.com").ttl = 120000000000) :=
  ⟨c2_round_trip.1
    { id := "123", type := "A", name := "abc.my", value := "1.2.3.4", ttl := 120000000000, priority := 0 }
    "dynu.com" "my.dynu.com" (by decide) (by decide) (by decide)
    (Or.inr ⟨by decide, "abc", by decide, by decide, by decide⟩) (by norm_num),
   c2_round_trip.2
    { id := "123", type := "PTR", name := "10.207.160.216.in-addr.arpa", value := "abc.my.dynu.com", ttl := 120000000000, priority := 0 }
    "dynu.com" "my.dynu.com" rfl
    (Or.inr ⟨by decide, "abc", by decide, by decide, by decide⟩) (by norm_num)⟩

end Dynu
